import Mathlib

/-!
Shallow embedding of the asynchronous build-job orchestrator of
`src/app.py`: the job registry record (`build_states` entries), the
Gradle output-driven progress estimator (`run_gradle_with_progress`),
the staged pipeline (`execute_build_async`), the dispatcher
(`build_apk`) and the server-push progress stream (`stream_progress`).

Machine-level conventions: Python strings are Lean `String`s, Python
dict records are a structure with the keys the program uses, registry
mutations are modelled as the ordered list of states the job record
passes through, and the outcomes of external commands and filesystem
probes are explicit parameters of the pipeline run.
-/

/-- One job record of `build_states`: the keys `status`, `progress`,
`message` are always present (set at creation in `build_apk`), the keys
`error`, `apk_path`, `apk_filename` are added by later updates. -/
structure JobState where
  status : String
  progress : Nat
  message : String
  error : Option String := none
  apk_path : Option String := none
  apk_filename : Option String := none
deriving Repr, DecidableEq

/-- Helper for Python's `pat in s` on character lists: `p` occurs as a
contiguous sublist of the second argument. -/
def substrAux (p : List Char) : List Char → Bool
  | [] => p.isEmpty
  | c :: t => List.isPrefixOf p (c :: t) || substrAux p t

/-- Python's substring test `pat in s`. -/
def strContains (s pat : String) : Bool :=
  substrAux pat.toList s.toList

/-- Python `s.strip()` on a character list: drop ASCII whitespace from
both ends. -/
def pyStripL (s : List Char) : List Char :=
  ((s.dropWhile Char.isWhitespace).reverse.dropWhile
    Char.isWhitespace).reverse

/-- Python `s.strip()`. -/
def pyStrip (s : String) : String :=
  (pyStripL s.toList).asString

/-- Python `s.split(sep)` for a one-character separator, on character
lists (`"a>b".split(">") = ["a","b"]`, `">".split(">") = ["",""]`). -/
def pySplit (sep : Char) : List Char → List Char → List (List Char)
  | [], acc => [acc.reverse]
  | c :: t, acc =>
    if c = sep then acc.reverse :: pySplit sep t []
    else pySplit sep t (c :: acc)

/-- Python `s.startswith(pat)`. -/
def strStarts (s pat : String) : Bool :=
  List.isPrefixOf pat.toList s.toList

/-- A registry `update` that sets `progress`, `message` and `status`
(the common shape of `update(progress, msg, status)` in the program);
all other keys of the record are kept. -/
def setPMS (s : JobState) (p : Nat) (m st : String) : JobState :=
  { s with progress := p, message := m, status := st }

/-- A registry update that sets only `message` and `status` (the
"Downloading"/"Compiling" heuristic updates inside the Gradle loop,
which do not touch `progress`). -/
def setMS (s : JobState) (m st : String) : JobState :=
  { s with message := m, status := st }

/-- The `GRADLE_TASKS` rule table of `src/app.py`: textual markers and
their 0-100 progress checkpoints, in build order. -/
def GRADLE_TASKS : List (String × Nat) := [
  ("preBuild", 5),
  ("preReleaseBuild", 8),
  ("compileReleaseAidl", 10),
  ("compileReleaseRenderscript", 12),
  ("generateReleaseBuildConfig", 15),
  ("generateReleaseResValues", 18),
  ("generateReleaseResources", 20),
  ("mergeReleaseResources", 25),
  ("processReleaseResources", 30),
  ("compileReleaseJavaWithJavac", 45),
  ("compileReleaseSources", 50),
  ("mergeReleaseJavaResource", 55),
  ("dexBuilderRelease", 60),
  ("mergeDexRelease", 70),
  ("mergeReleaseJniLibFolders", 72),
  ("mergeReleaseNativeLibs", 75),
  ("packageRelease", 85),
  ("assembleRelease", 90),
  ("signReleaseBundle", 92),
  ("BUILD SUCCESSFUL", 95)]

/-- The scaling of `run_gradle_with_progress`:
`base_progress + int((progress_value / 100) * (95 - base_progress))`.
The ceiling 95 is hardcoded in the program. For the checkpoint values of
the table and of the claims this exact rational formula truncates to the
same integer as Python's float computation. -/
def scaledProgress (base v : Nat) : Nat :=
  base + v * (95 - base) / 100

/-- Scan the rule table in order; the first rule whose marker occurs as
a substring of the (stripped) line wins. This is the inner
`for pattern, progress_value in GRADLE_TASKS: if pattern in
line_stripped: ... break` loop. -/
def findRule (rules : List (String × Nat)) (ls : String) :
    Option (String × Nat) :=
  rules.find? (fun r => strContains ls r.1)

/-- The `current_task` extraction: if the line contains ">", the part
after the last ">", stripped and truncated to 50 characters; otherwise
the matched pattern itself. -/
def cleanTask (pat ls : String) : String :=
  if strContains ls ">" then
    let taskPart := pyStripL ((pySplit '>' ls.toList []).getLastD [])
    if taskPart.length > 50 then (taskPart.take 50).asString
    else taskPart.asString
  else pat

/-- The running state of the Gradle output loop: the monotonic ratchet
value `last` (`last_progress`), the current task text, the job record
as currently stored in `build_states[build_id]`, the registry states
written so far (`events`, in order), and the accumulated raw
`output_lines`. -/
structure GradleSt where
  last : Nat
  task : String
  job : JobState
  events : List JobState
  output : List String
deriving Repr, DecidableEq

/-- The rule-matching part of one loop iteration of
`run_gradle_with_progress`: the first matching rule updates the
registry only when its scaled value strictly exceeds the ratchet
`last_progress` (and the loop `break`s after the first match either
way). -/
def gradleRuleStep (rules : List (String × Nat)) (base : Nat)
    (st : GradleSt) (ls : String) : GradleSt :=
  match findRule rules ls with
  | some r =>
    let scaled := scaledProgress base r.2
    if scaled > st.last then
      let task := cleanTask r.1 ls
      let job := setPMS st.job scaled ("Building: " ++ task) "in_progress"
      { st with last := scaled, task := task, job := job,
                events := st.events ++ [job] }
    else st
  | none => st

/-- The message-heuristic part of one loop iteration: a
"Downloading"/"Download" or "Compiling" substring overwrites only
`message` (and re-asserts `status`), never `progress`. -/
def gradleMsgStep (st : GradleSt) (ls : String) : GradleSt :=
  if strContains ls "Downloading" || strContains ls "Download" then
    let job := setMS st.job "Downloading dependencies..." "in_progress"
    { st with job := job, events := st.events ++ [job] }
  else if strContains ls "Compiling" then
    let job := setMS st.job "Compiling source code..." "in_progress"
    { st with job := job, events := st.events ++ [job] }
  else st

/-- One iteration of `for line in process.stdout` in
`run_gradle_with_progress`: record the raw line in `output_lines`,
strip it, apply the first matching rule, then apply the message
heuristics (both parts run on the same line; the inner `break` only
leaves the rule scan). -/
def gradleLineStep (rules : List (String × Nat)) (base : Nat)
    (st : GradleSt) (line : String) : GradleSt :=
  gradleMsgStep
    (gradleRuleStep rules base { st with output := st.output ++ [line] }
      (pyStrip line))
    (pyStrip line)

/-- The whole output loop of `run_gradle_with_progress`, starting from
`current_task = "Starting Gradle..."`, `last_progress = base_progress`,
with `job` the registry record when the loop starts. -/
def runGradleFold (rules : List (String × Nat)) (base : Nat)
    (lines : List String) (job : JobState) : GradleSt :=
  lines.foldl (gradleLineStep rules base)
    { last := base, task := "Starting Gradle...", job := job,
      events := [], output := [] }

/-- The exceptions `execute_build_async` catches: `CalledProcessError`
(carrying the Python repr of the command and the captured combined
output) from `run_command`/`run_gradle_with_progress`, or any other
exception, carrying its `str`. -/
inductive Exc where
  | cpe (cmd output : String)
  | other (msg : String)
deriving Repr, DecidableEq

/-- The terminal `error` update of `execute_build_async`: the
`except subprocess.CalledProcessError` handler writes
`update(0, "Build failed. Check console for details.", "error",
error=f"Command failed: ...\nOutput:\n...")`; the generic
`except Exception` handler writes
`update(0, f"Error: ...", "error", error=str(e))`. Both reset
`progress` to 0. -/
def errorState (s : JobState) : Exc → JobState
  | .cpe cmd output =>
    { s with progress := 0,
             message := "Build failed. Check console for details.",
             status := "error",
             error := some ("Command failed: " ++ cmd
               ++ "\nOutput:\n" ++ output) }
  | .other msg =>
    { s with progress := 0, message := "Error: " ++ msg,
             status := "error", error := some msg }

/-- Last path component of an extracted entry (the file name that
`Path.rglob` matches its pattern against). -/
def fileName (p : String) : String :=
  ((pySplit '/' p.toList []).getLastD []).asString

/-- `next((p for p in assets_dir.rglob("index.htm*")), None)`: the first
extracted path whose file name matches the glob `index.htm*`, i.e.
whose name starts with `index.htm`. -/
def findIndexFile (entries : List String) : Option String :=
  entries.find? (fun e => strStarts (fileName e) "index.htm")

/-- Python `path.rstrip("/")` on a character list. -/
def rstripSlashL (s : List Char) : List Char :=
  (s.reverse.dropWhile (· = '/')).reverse

/-- Python `path.strip("/")` on a character list. -/
def stripSlashL (s : List Char) : List Char :=
  rstripSlashL (s.dropWhile (· = '/'))

/-- The `parts` list computed in git mode: take the url path (the
`.path` result of the standard-library `urllib.parse.urlparse`, which
is out of scope and supplied as input), strip trailing slashes, drop a
trailing ".git", strip slashes on both sides and split on "/". Fewer
than two parts raises `ValueError(f"Invalid repository URL: ...")`. -/
def gitParts (path : String) : List String :=
  let p1 := rstripSlashL path.toList
  let p2 := if List.isPrefixOf ['t', 'i', 'g', '.'] p1.reverse
            then (p1.reverse.drop 4).reverse else p1
  (pySplit '/' (stripSlashL p2) []).map List.asString

/-- The content source a pipeline run branches on, following the
`if data["zip_data"]: ... elif data.get("git_url"): ... else: ...`
dispatch of `execute_build_async`. Zip mode carries the list of
extracted entry paths; git mode carries the parsed url path, the raw
url (used in the `ValueError` text), branch and entry; URL mode carries
the optional `main_url` (which is `None` when the request supplied no
source at all). -/
inductive Source where
  | zip (entries : List String)
  | git (urlPath rawUrl branch entry : String)
  | url (mainUrl : Option String)
deriving Repr, DecidableEq

/-- `overwrite_android_files` only fails on the registry-relevant paths
when URL mode supplies no `main_url`: Python's
`str.replace("MAIN_URL_PLACEHOLDER", None)` raises
`TypeError("replace() argument 2 must be str, not None")`. Its
filesystem writes are outside the registry model. -/
def overwriteErr : Source → Option Exc
  | .url none => some (.other "replace() argument 2 must be str, not None")
  | _ => none

/-- The environment of one `execute_build_async` run: the request data
and the outcomes of the external commands and filesystem probes.
`cleanResult` is the outcome of the `make.sh clean` command (`none` =
exited fine, `some e` = raised `e`); `applyConfigErr` is the
`CalledProcessError` data of the `apply_config` command when it fails;
`gradleLines` and `gradleExit` are the output lines and exit code of
the streamed gradle invocation; `apkExists` is whether the expected apk
file exists afterwards. The `Cmd` strings are the Python reprs of the
command lists, used only inside error text. -/
structure PipelineEnv where
  appId : String
  name : String
  source : Source
  cleanResult : Option Exc
  applyConfigErr : Option (String × String)
  applyCfgCmd : String
  gradleLines : List String
  gradleExit : Nat
  gradleCmd : String
  apkExists : Bool
deriving Repr, DecidableEq

/-- Stage b of the pipeline, exactly as written:
`try: run_command([... "clean"], cwd=BASE_DIR) except: pass` — whatever
the clean command does, the exception (if any) is discarded and the
registry record passes through unchanged. -/
def cleanStage (_r : Option Exc) (s : JobState) : JobState := s

/-- `str(OUTPUT_DIR / app_id / f"{app_id}.apk")`, relative to the
output directory (the absolute prefix depends on the deployment and is
irrelevant to every claim). -/
def apkPathOf (appId : String) : String :=
  appId ++ "/" ++ appId ++ ".apk"

/-- The pipeline after stage a: clean (failures swallowed), configure
(`apply_config` via `run_command`, `CalledProcessError` on nonzero),
inject sources (`overwrite_android_files`), gradle build with progress
(`run_gradle_with_progress`, raising `CalledProcessError` with the
joined output lines on nonzero exit), verify the apk
(`FileNotFoundError("APK build failed")` when absent), finalize.
`evs` is the list of registry states written so far and `s` the current
record. -/
def afterA (p : PipelineEnv) (evs : List JobState) (s : JobState) :
    List JobState :=
  let s3 := setPMS s 20 "Cleaning previous builds..." "in_progress"
  let s3c := cleanStage p.cleanResult s3
  let s4 := setPMS s3c 30 "Configuring project..." "in_progress"
  match p.applyConfigErr with
  | some c => evs ++ [s3, s4, errorState s4 (.cpe c.1 c.2)]
  | none =>
    let s5 := setPMS s4 45 "Injecting source code..." "in_progress"
    match overwriteErr p.source with
    | some e => evs ++ [s3, s4, s5, errorState s5 e]
    | none =>
      let s6 := setPMS s5 50 "Building APK..." "in_progress"
      let g := runGradleFold GRADLE_TASKS 50 p.gradleLines s6
      if p.gradleExit ≠ 0 then
        evs ++ [s3, s4, s5, s6] ++ g.events
          ++ [errorState g.job (.cpe p.gradleCmd (String.join g.output))]
      else
        let s7 := setPMS g.job 96 "Verifying APK..." "in_progress"
        if p.apkExists then
          let s8 := setPMS s7 98 "Finalizing..." "in_progress"
          let s9a := setPMS s8 100 "Done!" "complete"
          let s9 := { s9a with
                      apk_path := some (apkPathOf p.appId),
                      apk_filename := some (p.appId ++ "_release.apk") }
          evs ++ [s3, s4, s5, s6] ++ g.events ++ [s7, s8, s9]
        else
          evs ++ [s3, s4, s5, s6] ++ g.events
            ++ [s7, errorState s7 (.other "APK build failed")]

/-- Stage a: `update(5, "Preparing assets...")`, then the source
dispatch. Zip mode looks for an `index.htm*` entry and raises
`RuntimeError("No index.html found in zip")` when there is none; git
mode writes `update(10, "Configuring Git repository...")` and raises
`ValueError` on a malformed url; URL mode writes nothing further.
Returns (registry states written, current record, raised exception). -/
def stageA (src : Source) (s1 : JobState) :
    List JobState × JobState × Option Exc :=
  match src with
  | .zip entries =>
    match findIndexFile entries with
    | some _ => ([s1], s1, none)
    | none => ([s1], s1, some (.other "No index.html found in zip"))
  | .git urlPath rawUrl _ _ =>
    let s2 := setPMS s1 10 "Configuring Git repository..." "in_progress"
    if (gitParts urlPath).length < 2 then
      ([s1, s2], s2, some (.other ("Invalid repository URL: " ++ rawUrl)))
    else ([s1, s2], s2, none)
  | .url _ => ([s1], s1, none)

/-- The ordered sequence of registry states `execute_build_async`
writes for its job (each element is the record after one `update`
call), starting from record `s0`. Any exception raised inside the
`try` is caught and turned into a single terminal `error` update. -/
def executeBuild (p : PipelineEnv) (s0 : JobState) : List JobState :=
  let s1 := setPMS s0 5 "Preparing assets..." "in_progress"
  match stageA p.source s1 with
  | (evs, s, some e) => evs ++ [errorState s e]
  | (evs, s, none) => afterA p evs s

/-- The record `build_apk` inserts into `build_states` at submission:
`{"status": "in_progress", "progress": 0, "message": "Starting..."}`. -/
def initialBuildState : JobState :=
  { status := "in_progress", progress := 0, message := "Starting..." }

/-- The content-source fields of a submitted multipart request
(`main_url`, `zip_file`, `git_url`); `none` models a missing or falsy
(empty) field. Zip data is represented by the entry paths the archive
would extract to. -/
structure RequestSources where
  mainUrl : Option String
  zipData : Option (List String)
  gitUrl : Option String
deriving Repr, DecidableEq

/-- Which branch of `execute_build_async` the thread data of a request
selects: truthy `zip_data` first, then truthy `git_url`, else URL mode
with the optional `main_url`. `gitPath` is the parsed path of the git
url (standard-library `urlparse`); branch and entry are at their
`data.get` defaults, which never reach the registry trace. -/
def sourceOf (req : RequestSources) (gitPath : String) : Source :=
  match req.zipData with
  | some entries => .zip entries
  | none =>
    match req.gitUrl with
    | some u => .git gitPath u "main" "index.html"
    | none => .url req.mainUrl

/-- The dispatcher `build_apk`: allocate an id, insert the initial
record into `build_states` under the lock, start the pipeline thread,
and return the id — with no validation of the request whatsoever.
Returns (updated registry, returned id, the source the background
thread will branch on). -/
def build_apk (reg : String → Option JobState) (buildId : String)
    (req : RequestSources) (gitPath : String) :
    (String → Option JobState) × String × Source :=
  (fun k => if k = buildId then some initialBuildState else reg k,
   buildId,
   sourceOf req gitPath)

/-- One server-sent event of `stream_progress`: a state snapshot
(`data: ...`), the terminal `event: complete` (carrying the build id),
or an `event: error` (terminal error or unknown id). -/
inductive StreamEvent where
  | snap (s : JobState)
  | complete (buildId : String)
  | errorEv (detail : Option String)
deriving Repr, DecidableEq

/-- Whether an event is one of the two `event:`-tagged terminal
emissions of the generator. -/
def isTerminalEv : StreamEvent → Bool
  | .snap _ => false
  | .complete _ => true
  | .errorEv _ => true

/-- The generator of `stream_progress`. Each element of `obs` is one
poll of `build_states.get(build_id)` (one `while True` iteration);
`last` is the previously emitted snapshot. A missing id yields one
error event and stops; a changed state yields a `data` snapshot; a
`complete`/`error` status then yields one terminal event and stops;
otherwise the generator sleeps and polls again. A run is observed
through a finite list of polls; exhausting the list returns the events
emitted so far. -/
def streamEvents (buildId : String) :
    List (Option JobState) → Option JobState → List StreamEvent
  | [], _ => []
  | o :: rest, last =>
    match o with
    | none => [.errorEv (some "Invalid ID")]
    | some st =>
      let once : List StreamEvent :=
        if some st ≠ last then [.snap st] else []
      if st.status = "complete" then once ++ [.complete buildId]
      else if st.status = "error" then once ++ [.errorEv st.error]
      else once ++ streamEvents buildId rest (some st)

/-- Ordering of registry snapshots by their `progress` field. -/
def progLe (a b : JobState) : Prop := a.progress ≤ b.progress

instance : DecidablePred fun p : JobState × JobState => progLe p.1 p.2 :=
  fun p => inferInstanceAs (Decidable (p.1.progress ≤ p.2.progress))

instance progLe.decRel : DecidableRel progLe :=
  fun a b => inferInstanceAs (Decidable (a.progress ≤ b.progress))

instance progLe.isTrans : IsTrans JobState progLe :=
  ⟨fun _ _ _ h1 h2 => Nat.le_trans h1 h2⟩

/-- The final registry record of a pipeline run started from the
record `build_apk` created. -/
def finalState (p : PipelineEnv) : JobState :=
  (executeBuild p initialBuildState).getLastD initialBuildState

/-- Whether stage a succeeds for a source (zip has an index entry, git
url parses into at least user and repo, URL mode never fails here). -/
def stageAOk : Source → Bool
  | .zip entries => (findIndexFile entries).isSome
  | .git urlPath _ _ _ => !((gitParts urlPath).length < 2 : Bool)
  | .url _ => true

/-! ## Shared records and list helpers -/

/-- The registry record after `update(5, "Preparing assets...")` in a
run started from the submission record: all optional keys are still
absent. -/
def s1Record : JobState :=
  { status := "in_progress", progress := 5, message := "Preparing assets..." }

/-- The record after `update(20, "Cleaning previous builds...")`. -/
def s3Record : JobState :=
  { status := "in_progress", progress := 20,
    message := "Cleaning previous builds..." }

/-- The record after `update(30, "Configuring project...")`. -/
def s4Record : JobState :=
  { status := "in_progress", progress := 30,
    message := "Configuring project..." }

/-- The record after `update(45, "Injecting source code...")`. -/
def s5Record : JobState :=
  { status := "in_progress", progress := 45,
    message := "Injecting source code..." }

/-- The record after `update(50, "Building APK...")` — the registry
state when the gradle output loop starts. -/
def s6Record : JobState :=
  { status := "in_progress", progress := 50, message := "Building APK..." }

theorem mem_of_getLastSome {α : Type} {l : List α} {a : α}
    (h : l.getLast? = some a) : a ∈ l := by
  have hd := List.dropLast_append_getLast? a h
  rw [← hd]
  exact List.mem_append_right _ (List.mem_singleton_self a)

theorem mem_of_headSome {α : Type} {l : List α} {a : α}
    (h : l.head? = some a) : a ∈ l := by
  cases l with
  | nil => cases h
  | cons x t =>
    rw [List.head?_cons, Option.some.injEq] at h
    rw [← h]
    exact List.mem_cons_self x t

/-! ## Gradle-loop invariant -/

/-- Invariant of the gradle output loop when called with
`base_progress = 50` and the program's rule table: the registry
`progress` equals the ratchet, the ratchet stays in `[50, 92]`
(50 + (95/100)·(95 − 50) = 92 is the largest reachable scaled value),
the record stays `in_progress`, every state written so far was
`in_progress` with progress in `[50, 92]`, and the written states
followed by the current record have non-decreasing progress. -/
def GInvT (last : Nat) (job : JobState) (events : List JobState) : Prop :=
  job.progress = last ∧ 50 ≤ last ∧ last ≤ 92 ∧
  job.status = "in_progress" ∧
  (∀ e ∈ events, e.status = "in_progress" ∧ 50 ≤ e.progress ∧
    e.progress ≤ 92) ∧
  List.Chain' progLe (events ++ [job])

/-- The loop invariant, as a predicate on the loop state. -/
def GInv (st : GradleSt) : Prop := GInvT st.last st.job st.events

theorem gradle_scaled_bound :
    ∀ r ∈ GRADLE_TASKS, scaledProgress 50 r.2 ≤ 92 := by decide

theorem chain_push (evs : List JobState) (j j' : JobState)
    (h : List.Chain' progLe (evs ++ [j])) (hle : j.progress ≤ j'.progress) :
    List.Chain' progLe (evs ++ [j', j']) := by
  rw [List.chain'_append] at h ⊢
  obtain ⟨h1, -, h3⟩ := h
  refine ⟨h1, List.chain'_pair.mpr (le_refl j'.progress), ?_⟩
  intro x hx y hy
  have hxj : progLe x j := h3 x hx j rfl
  simp only [List.head?, Option.mem_def, Option.some.injEq] at hy
  subst hy
  exact Nat.le_trans hxj hle

theorem ginvT_ratchet {last : Nat} {job : JobState} {evs : List JobState}
    (h : GInvT last job evs) {scaled : Nat} (m : String)
    (hs1 : last < scaled) (hs2 : scaled ≤ 92) :
    GInvT scaled (setPMS job scaled m "in_progress")
      (evs ++ [setPMS job scaled m "in_progress"]) := by
  obtain ⟨hpl, h50, h92, hstat, hev, hch⟩ := h
  refine ⟨rfl, Nat.le_trans h50 (Nat.le_of_lt hs1), hs2, rfl, ?_, ?_⟩
  · intro e he
    rcases List.mem_append.mp he with he | he
    · exact hev e he
    · rcases List.mem_singleton.mp he with rfl
      exact ⟨rfl, Nat.le_trans h50 (Nat.le_of_lt hs1), hs2⟩
  · have := chain_push evs job (setPMS job scaled m "in_progress") hch
      (by rw [hpl]; exact Nat.le_of_lt hs1)
    simpa using this

theorem ginvT_message {last : Nat} {job : JobState} {evs : List JobState}
    (h : GInvT last job evs) (m : String) :
    GInvT last (setMS job m "in_progress")
      (evs ++ [setMS job m "in_progress"]) := by
  obtain ⟨hpl, h50, h92, hstat, hev, hch⟩ := h
  refine ⟨hpl, h50, h92, rfl, ?_, ?_⟩
  · intro e he
    rcases List.mem_append.mp he with he | he
    · exact hev e he
    · rcases List.mem_singleton.mp he with rfl
      refine ⟨rfl, ?_, ?_⟩
      · show 50 ≤ job.progress
        rw [hpl]; exact h50
      · show job.progress ≤ 92
        rw [hpl]; exact h92
  · have := chain_push evs job (setMS job m "in_progress") hch (le_refl _)
    simpa using this

theorem ginv_rule_step (st : GradleSt) (ls : String) (h : GInv st) :
    GInv (gradleRuleStep GRADLE_TASKS 50 st ls) := by
  unfold gradleRuleStep
  cases hfr : findRule GRADLE_TASKS ls with
  | none => exact h
  | some r =>
    have hr92 : scaledProgress 50 r.2 ≤ 92 :=
      gradle_scaled_bound r (List.mem_of_find?_eq_some hfr)
    dsimp only
    by_cases hgt : scaledProgress 50 r.2 > st.last
    · rw [if_pos hgt]
      exact ginvT_ratchet h _ hgt hr92
    · rw [if_neg hgt]
      exact h

theorem ginv_msg_step (st : GradleSt) (ls : String) (h : GInv st) :
    GInv (gradleMsgStep st ls) := by
  unfold gradleMsgStep
  split
  · exact ginvT_message h _
  · split
    · exact ginvT_message h _
    · exact h

theorem ginv_line_step (st : GradleSt) (line : String) (h : GInv st) :
    GInv (gradleLineStep GRADLE_TASKS 50 st line) := by
  unfold gradleLineStep
  apply ginv_msg_step
  apply ginv_rule_step
  exact h

theorem ginv_fold (lines : List String) (st : GradleSt) (h : GInv st) :
    GInv (lines.foldl (gradleLineStep GRADLE_TASKS 50) st) := by
  induction lines generalizing st with
  | nil => exact h
  | cons l t ih => exact ih _ (ginv_line_step st l h)

theorem ginv_runGradleFold (lines : List String) (job : JobState)
    (hp : job.progress = 50) (hs : job.status = "in_progress") :
    GInv (runGradleFold GRADLE_TASKS 50 lines job) := by
  apply ginv_fold
  show GInvT 50 job []
  exact ⟨hp, le_refl 50, by omega, hs, fun e he => absurd he (by simp),
    by simp⟩

/-! ## Gradle output accumulation -/

theorem gradleRuleStep_output (rules : List (String × Nat)) (base : Nat)
    (st : GradleSt) (ls : String) :
    (gradleRuleStep rules base st ls).output = st.output := by
  unfold gradleRuleStep
  cases findRule rules ls with
  | none => rfl
  | some r =>
    dsimp only
    split <;> rfl

theorem gradleMsgStep_output (st : GradleSt) (ls : String) :
    (gradleMsgStep st ls).output = st.output := by
  unfold gradleMsgStep
  split
  · rfl
  · split <;> rfl

theorem gradleLineStep_output (rules : List (String × Nat)) (base : Nat)
    (st : GradleSt) (line : String) :
    (gradleLineStep rules base st line).output = st.output ++ [line] := by
  unfold gradleLineStep
  rw [gradleMsgStep_output, gradleRuleStep_output]

theorem fold_output (rules : List (String × Nat)) (base : Nat)
    (lines : List String) (st : GradleSt) :
    (lines.foldl (gradleLineStep rules base) st).output
      = st.output ++ lines := by
  induction lines generalizing st with
  | nil => simp
  | cons l t ih =>
    show (t.foldl (gradleLineStep rules base)
      (gradleLineStep rules base st l)).output = st.output ++ l :: t
    rw [ih, gradleLineStep_output]
    simp

theorem runGradleFold_output (rules : List (String × Nat)) (base : Nat)
    (lines : List String) (job : JobState) :
    (runGradleFold rules base lines job).output = lines := by
  unfold runGradleFold
  rw [fold_output]
  simp

/-! ## Pipeline trace shapes -/

/-- The record after `update(10, "Configuring Git repository...")`. -/
def s2Record : JobState :=
  { status := "in_progress", progress := 10,
    message := "Configuring Git repository..." }

theorem executeBuild_zip_noindex (p : PipelineEnv) (entries : List String)
    (hs : p.source = .zip entries) (hnone : findIndexFile entries = none) :
    executeBuild p initialBuildState
      = [s1Record,
         errorState s1Record (.other "No index.html found in zip")] := by
  simp only [executeBuild, stageA, hs, hnone]
  rfl

theorem executeBuild_zip_ok (p : PipelineEnv) (entries : List String)
    (f : String) (hs : p.source = .zip entries)
    (hf : findIndexFile entries = some f) :
    executeBuild p initialBuildState = afterA p [s1Record] s1Record := by
  simp only [executeBuild, stageA, hs, hf]
  rfl

theorem executeBuild_url (p : PipelineEnv) (mu : Option String)
    (hs : p.source = .url mu) :
    executeBuild p initialBuildState = afterA p [s1Record] s1Record := by
  simp only [executeBuild, stageA, hs]
  rfl

theorem executeBuild_git_bad (p : PipelineEnv) (up ru b en : String)
    (hs : p.source = .git up ru b en)
    (hbad : (gitParts up).length < 2) :
    executeBuild p initialBuildState
      = [s1Record, s2Record]
        ++ [errorState s2Record
              (.other ("Invalid repository URL: " ++ ru))] := by
  simp only [executeBuild, stageA, hs]
  rw [if_pos hbad]
  rfl

theorem executeBuild_git_ok (p : PipelineEnv) (up ru b en : String)
    (hs : p.source = .git up ru b en)
    (hok : ¬ (gitParts up).length < 2) :
    executeBuild p initialBuildState
      = afterA p [s1Record, s2Record] s2Record := by
  simp only [executeBuild, stageA, hs]
  rw [if_neg hok]
  rfl

theorem afterA_cfg_fail (p : PipelineEnv) (evs : List JobState)
    (s : JobState) (c : String × String)
    (hcfg : p.applyConfigErr = some c) :
    afterA p evs s
      = evs ++ [setPMS s 20 "Cleaning previous builds..." "in_progress",
                setPMS s 30 "Configuring project..." "in_progress"]
        ++ [errorState (setPMS s 30 "Configuring project..." "in_progress")
              (.cpe c.1 c.2)] := by
  simp only [afterA, hcfg]
  rw [List.append_assoc]
  rfl

theorem afterA_overwrite_fail (p : PipelineEnv) (evs : List JobState)
    (s : JobState) (e : Exc) (hcfg : p.applyConfigErr = none)
    (hov : overwriteErr p.source = some e) :
    afterA p evs s
      = evs ++ [setPMS s 20 "Cleaning previous builds..." "in_progress",
                setPMS s 30 "Configuring project..." "in_progress",
                setPMS s 45 "Injecting source code..." "in_progress"]
        ++ [errorState (setPMS s 45 "Injecting source code..." "in_progress")
              e] := by
  simp only [afterA, hcfg, hov]
  rw [List.append_assoc]
  rfl

theorem afterA_gradle_fail (p : PipelineEnv) (evs : List JobState)
    (s : JobState) (hcfg : p.applyConfigErr = none)
    (hov : overwriteErr p.source = none) (hexit : p.gradleExit ≠ 0) :
    afterA p evs s
      = evs ++ [setPMS s 20 "Cleaning previous builds..." "in_progress",
                setPMS s 30 "Configuring project..." "in_progress",
                setPMS s 45 "Injecting source code..." "in_progress",
                setPMS s 50 "Building APK..." "in_progress"]
        ++ (runGradleFold GRADLE_TASKS 50 p.gradleLines
              (setPMS s 50 "Building APK..." "in_progress")).events
        ++ [errorState
              (runGradleFold GRADLE_TASKS 50 p.gradleLines
                (setPMS s 50 "Building APK..." "in_progress")).job
              (.cpe p.gradleCmd (String.join p.gradleLines))] := by
  simp only [afterA, hcfg, hov]
  rw [if_pos hexit, runGradleFold_output]
  rfl

theorem afterA_apk_missing (p : PipelineEnv) (evs : List JobState)
    (s : JobState) (hcfg : p.applyConfigErr = none)
    (hov : overwriteErr p.source = none) (hexit : p.gradleExit = 0)
    (hapk : p.apkExists = false) :
    afterA p evs s
      = evs ++ [setPMS s 20 "Cleaning previous builds..." "in_progress",
                setPMS s 30 "Configuring project..." "in_progress",
                setPMS s 45 "Injecting source code..." "in_progress",
                setPMS s 50 "Building APK..." "in_progress"]
        ++ (runGradleFold GRADLE_TASKS 50 p.gradleLines
              (setPMS s 50 "Building APK..." "in_progress")).events
        ++ [setPMS (runGradleFold GRADLE_TASKS 50 p.gradleLines
                (setPMS s 50 "Building APK..." "in_progress")).job
              96 "Verifying APK..." "in_progress",
            errorState
              (setPMS (runGradleFold GRADLE_TASKS 50 p.gradleLines
                  (setPMS s 50 "Building APK..." "in_progress")).job
                96 "Verifying APK..." "in_progress")
              (.other "APK build failed")] := by
  simp only [afterA, hcfg, hov]
  rw [if_neg (by rw [hexit]; exact fun h => h rfl), hapk]
  rw [if_neg (Bool.false_ne_true)]
  rfl

theorem afterA_ok (p : PipelineEnv) (evs : List JobState)
    (s : JobState) (hcfg : p.applyConfigErr = none)
    (hov : overwriteErr p.source = none) (hexit : p.gradleExit = 0)
    (hapk : p.apkExists = true) :
    afterA p evs s
      = evs ++ [setPMS s 20 "Cleaning previous builds..." "in_progress",
                setPMS s 30 "Configuring project..." "in_progress",
                setPMS s 45 "Injecting source code..." "in_progress",
                setPMS s 50 "Building APK..." "in_progress"]
        ++ (runGradleFold GRADLE_TASKS 50 p.gradleLines
              (setPMS s 50 "Building APK..." "in_progress")).events
        ++ [setPMS (runGradleFold GRADLE_TASKS 50 p.gradleLines
                (setPMS s 50 "Building APK..." "in_progress")).job
              96 "Verifying APK..." "in_progress",
            setPMS (runGradleFold GRADLE_TASKS 50 p.gradleLines
                (setPMS s 50 "Building APK..." "in_progress")).job
              98 "Finalizing..." "in_progress",
            { setPMS (runGradleFold GRADLE_TASKS 50 p.gradleLines
                  (setPMS s 50 "Building APK..." "in_progress")).job
                100 "Done!" "complete" with
              apk_path := some (apkPathOf p.appId),
              apk_filename := some (p.appId ++ "_release.apk") }] := by
  simp only [afterA, hcfg, hov]
  rw [if_neg (by rw [hexit]; exact fun h => h rfl), hapk]
  rw [if_pos rfl]
  rfl

/-! ## Final registry states of failing runs -/

theorem finalState_zip_noindex (p : PipelineEnv) (entries : List String)
    (hs : p.source = .zip entries) (hnone : findIndexFile entries = none) :
    finalState p
      = errorState s1Record (.other "No index.html found in zip") := by
  unfold finalState
  rw [executeBuild_zip_noindex p entries hs hnone]
  rfl

theorem finalState_git_bad (p : PipelineEnv) (up ru b en : String)
    (hs : p.source = .git up ru b en) (hbad : (gitParts up).length < 2) :
    finalState p
      = errorState s2Record (.other ("Invalid repository URL: " ++ ru)) := by
  unfold finalState
  rw [executeBuild_git_bad p up ru b en hs hbad]
  rfl

theorem stageAOk_zip {entries : List String} {src : Source}
    (hs : src = .zip entries) (hok : stageAOk src = true) :
    ∃ f, findIndexFile entries = some f := by
  rw [hs] at hok
  simp only [stageAOk, Option.isSome_iff_exists] at hok
  exact hok

theorem stageAOk_git {up ru b en : String} {src : Source}
    (hs : src = .git up ru b en) (hok : stageAOk src = true) :
    ¬ (gitParts up).length < 2 := by
  rw [hs] at hok
  simp only [stageAOk, Bool.not_eq_true', decide_eq_false_iff_not] at hok
  exact hok

theorem executeBuild_stageA_ok (p : PipelineEnv)
    (hok : stageAOk p.source = true) :
    executeBuild p initialBuildState = afterA p [s1Record] s1Record
    ∨ executeBuild p initialBuildState
        = afterA p [s1Record, s2Record] s2Record := by
  cases hsv : p.source with
  | zip entries =>
    obtain ⟨f, hf⟩ := stageAOk_zip hsv hok
    exact Or.inl (executeBuild_zip_ok p entries f hsv hf)
  | git up ru b en =>
    exact Or.inr (executeBuild_git_ok p up ru b en hsv (stageAOk_git hsv hok))
  | url mu =>
    exact Or.inl (executeBuild_url p mu hsv)

theorem finalState_cfg_fail (p : PipelineEnv) (c : String × String)
    (hok : stageAOk p.source = true) (hcfg : p.applyConfigErr = some c) :
    finalState p = errorState s4Record (.cpe c.1 c.2) := by
  unfold finalState
  rcases executeBuild_stageA_ok p hok with h | h <;>
    rw [h, afterA_cfg_fail p _ _ c hcfg] <;> rfl

theorem finalState_gradle_fail (p : PipelineEnv)
    (hok : stageAOk p.source = true) (hcfg : p.applyConfigErr = none)
    (hov : overwriteErr p.source = none) (hexit : p.gradleExit ≠ 0) :
    finalState p
      = errorState (runGradleFold GRADLE_TASKS 50 p.gradleLines s6Record).job
          (.cpe p.gradleCmd (String.join p.gradleLines)) := by
  unfold finalState
  rcases executeBuild_stageA_ok p hok with h | h <;>
    rw [h, afterA_gradle_fail p _ _ hcfg hov hexit] <;>
    rw [List.getLastD_concat] <;> rfl

theorem finalState_apk_missing (p : PipelineEnv)
    (hok : stageAOk p.source = true) (hcfg : p.applyConfigErr = none)
    (hov : overwriteErr p.source = none) (hexit : p.gradleExit = 0)
    (hapk : p.apkExists = false) :
    finalState p
      = errorState
          (setPMS (runGradleFold GRADLE_TASKS 50 p.gradleLines s6Record).job
            96 "Verifying APK..." "in_progress")
          (.other "APK build failed") := by
  unfold finalState
  rcases executeBuild_stageA_ok p hok with h | h <;>
    rw [h, afterA_apk_missing p _ _ hcfg hov hexit hapk] <;>
    simp only [List.getLastD_eq_getLast?, List.getLast?_append] <;> rfl

theorem finalState_url_none (p : PipelineEnv)
    (hs : p.source = .url none) (hcfg : p.applyConfigErr = none) :
    finalState p
      = errorState s5Record
          (.other "replace() argument 2 must be str, not None") := by
  unfold finalState
  rw [executeBuild_url p none hs,
    afterA_overwrite_fail p _ _ _ hcfg (by rw [hs]; rfl)]
  rfl

/-! ## Monotonicity of the observed in-progress states -/

/-- The registry states whose `status` key reads `in_progress`. -/
def inProg : JobState → Bool := fun s => s.status == "in_progress"

theorem filter_gradle_events (lines : List String) (j : JobState)
    (hp : j.progress = 50) (hs : j.status = "in_progress") :
    (runGradleFold GRADLE_TASKS 50 lines j).events.filter inProg
      = (runGradleFold GRADLE_TASKS 50 lines j).events := by
  apply List.filter_eq_self.mpr
  intro a ha
  have h := (ginv_runGradleFold lines j hp hs).2.2.2.2.1 a ha
  simp [inProg, h.1]

theorem chain_assemble (pre ev post : List JobState) (j : JobState)
    (hch : List.Chain' progLe (ev ++ [j]))
    (hbnd : ∀ e ∈ ev, 50 ≤ e.progress ∧ e.progress ≤ 92)
    (hpost : List.Chain' progLe post)
    (hposthead : ∀ y ∈ post.head?, 92 ≤ y.progress)
    (hpre : List.Chain' progLe pre)
    (hprelast : ∀ x ∈ pre.getLast?, x.progress ≤ 50) :
    List.Chain' progLe ((pre ++ ev) ++ post) := by
  have hev : List.Chain' progLe ev := (List.chain'_append.mp hch).1
  have h1 : List.Chain' progLe (pre ++ ev) := by
    rw [List.chain'_append]
    refine ⟨hpre, hev, ?_⟩
    intro x hx y hy
    have hy50 := (hbnd y (mem_of_headSome hy)).1
    exact Nat.le_trans (hprelast x hx) hy50
  rw [List.chain'_append]
  refine ⟨h1, hpost, ?_⟩
  intro x hx y hy
  have hy92 := hposthead y hy
  rw [List.getLast?_append] at hx
  cases hevl : ev.getLast? with
  | some a =>
    rw [hevl] at hx
    simp only [Option.or_some, Option.mem_def, Option.some.injEq] at hx
    subst hx
    exact Nat.le_trans (hbnd a (mem_of_getLastSome hevl)).2 hy92
  | none =>
    rw [hevl] at hx
    simp only [Option.none_or] at hx
    exact Nat.le_trans (Nat.le_trans (hprelast x hx) (by omega)) hy92

theorem filter_errorState (x : JobState) (e : Exc) :
    ([errorState x e] : List JobState).filter inProg = [] := by
  cases e <;> rfl

theorem filter_verify_err (j : JobState) (e : Exc) :
    ([setPMS j 96 "Verifying APK..." "in_progress",
      errorState (setPMS j 96 "Verifying APK..." "in_progress") e]
      : List JobState).filter inProg
      = [setPMS j 96 "Verifying APK..." "in_progress"] := by
  cases e <;> rfl

theorem filter_success_tail (j : JobState) (ap af : String) :
    ([setPMS j 96 "Verifying APK..." "in_progress",
      setPMS j 98 "Finalizing..." "in_progress",
      { setPMS j 100 "Done!" "complete" with
        apk_path := some ap, apk_filename := some af }]
      : List JobState).filter inProg
      = [setPMS j 96 "Verifying APK..." "in_progress",
         setPMS j 98 "Finalizing..." "in_progress"] := rfl

theorem filter_preA1 :
    ((initialBuildState
      :: ([s1Record]
        ++ [setPMS s1Record 20 "Cleaning previous builds..." "in_progress",
            setPMS s1Record 30 "Configuring project..." "in_progress",
            setPMS s1Record 45 "Injecting source code..." "in_progress",
            setPMS s1Record 50 "Building APK..." "in_progress"]))
      : List JobState).filter inProg
      = initialBuildState
        :: ([s1Record]
          ++ [setPMS s1Record 20 "Cleaning previous builds..." "in_progress",
              setPMS s1Record 30 "Configuring project..." "in_progress",
              setPMS s1Record 45 "Injecting source code..." "in_progress",
              setPMS s1Record 50 "Building APK..." "in_progress"]) := rfl

theorem filter_preA2 :
    ((initialBuildState
      :: ([s1Record, s2Record]
        ++ [setPMS s2Record 20 "Cleaning previous builds..." "in_progress",
            setPMS s2Record 30 "Configuring project..." "in_progress",
            setPMS s2Record 45 "Injecting source code..." "in_progress",
            setPMS s2Record 50 "Building APK..." "in_progress"]))
      : List JobState).filter inProg
      = initialBuildState
        :: ([s1Record, s2Record]
          ++ [setPMS s2Record 20 "Cleaning previous builds..." "in_progress",
              setPMS s2Record 30 "Configuring project..." "in_progress",
              setPMS s2Record 45 "Injecting source code..." "in_progress",
              setPMS s2Record 50 "Building APK..." "in_progress"]) := rfl

theorem post_head_ge (j : JobState) (rest : List JobState) :
    ∀ y ∈ (setPMS j 96 "Verifying APK..." "in_progress" :: rest).head?,
      92 ≤ y.progress := by
  intro y hy
  rw [List.head?_cons, Option.mem_def, Option.some.injEq] at hy
  subst hy
  show (92 : Nat) ≤ 96
  omega

theorem chain_post_ok (j : JobState) :
    List.Chain' progLe
      [setPMS j 96 "Verifying APK..." "in_progress",
       setPMS j 98 "Finalizing..." "in_progress"] :=
  List.chain'_pair.mpr (by show (96 : Nat) ≤ 98; omega)

def chainB : List JobState → Bool
  | a :: b :: l => decide (a.progress ≤ b.progress) && chainB (b :: l)
  | _ => true

theorem chainB_iff (l : List JobState) :
    chainB l = true ↔ List.Chain' progLe l := by
  induction l with
  | nil => simp [chainB]
  | cons a t ih =>
    cases t with
    | nil => simp [chainB]
    | cons b u =>
      rw [List.chain'_cons, ← ih]
      simp [chainB, progLe]

def lastLe50 (l : List JobState) : Bool :=
  match l.getLast? with
  | none => true
  | some x => decide (x.progress ≤ 50)

theorem lastLe50_spec (l : List JobState) (h : lastLe50 l = true) :
    ∀ x ∈ l.getLast?, x.progress ≤ 50 := by
  intro x hx
  unfold lastLe50 at h
  rw [Option.mem_def] at hx
  rw [hx] at h
  exact of_decide_eq_true h

theorem chain_afterA1 (p : PipelineEnv) :
    List.Chain' progLe
      ((initialBuildState :: afterA p [s1Record] s1Record).filter inProg) := by
  cases hcfg : p.applyConfigErr with
  | some c =>
    rw [afterA_cfg_fail p _ _ c hcfg, ← List.cons_append, ← List.cons_append,
        List.filter_append, filter_errorState, List.append_nil]
    exact (chainB_iff _).mp (by decide)
  | none =>
    cases hov : overwriteErr p.source with
    | some e =>
      rw [afterA_overwrite_fail p _ _ e hcfg hov, ← List.cons_append,
          ← List.cons_append, List.filter_append, filter_errorState,
          List.append_nil]
      exact (chainB_iff _).mp (by decide)
    | none =>
      have hg := ginv_runGradleFold p.gradleLines
        (setPMS s1Record 50 "Building APK..." "in_progress") rfl rfl
      obtain ⟨hpl, h50, h92, hstat, hbnd, hch⟩ := hg
      by_cases hexit : p.gradleExit = 0
      · cases hapk : p.apkExists with
        | true =>
          rw [afterA_ok p _ _ hcfg hov hexit hapk,
              ← List.cons_append, ← List.cons_append, List.filter_append,
              List.filter_append,
              filter_gradle_events p.gradleLines _ rfl rfl,
              filter_preA1, filter_success_tail]
          exact chain_assemble _ _ _ _ hch
            (fun e he => ⟨(hbnd e he).2.1, (hbnd e he).2.2⟩)
            (chain_post_ok _) (post_head_ge _ _)
            ((chainB_iff _).mp (by decide)) (lastLe50_spec _ (by decide))
        | false =>
          rw [afterA_apk_missing p _ _ hcfg hov hexit hapk,
              ← List.cons_append, ← List.cons_append, List.filter_append,
              List.filter_append,
              filter_gradle_events p.gradleLines _ rfl rfl,
              filter_preA1, filter_verify_err]
          exact chain_assemble _ _ _ _ hch
            (fun e he => ⟨(hbnd e he).2.1, (hbnd e he).2.2⟩)
            (List.chain'_singleton _) (post_head_ge _ _)
            ((chainB_iff _).mp (by decide)) (lastLe50_spec _ (by decide))
      · rw [afterA_gradle_fail p _ _ hcfg hov hexit,
            ← List.cons_append, ← List.cons_append, List.filter_append,
            List.filter_append,
            filter_gradle_events p.gradleLines _ rfl rfl,
            filter_preA1, filter_errorState]
        exact chain_assemble _ _ _ _ hch
          (fun e he => ⟨(hbnd e he).2.1, (hbnd e he).2.2⟩)
          List.chain'_nil (by intro y hy; cases hy)
          ((chainB_iff _).mp (by decide)) (lastLe50_spec _ (by decide))

theorem chain_afterA2 (p : PipelineEnv) :
    List.Chain' progLe
      ((initialBuildState :: afterA p [s1Record, s2Record] s2Record).filter
        inProg) := by
  cases hcfg : p.applyConfigErr with
  | some c =>
    rw [afterA_cfg_fail p _ _ c hcfg, ← List.cons_append, ← List.cons_append,
        List.filter_append, filter_errorState, List.append_nil]
    exact (chainB_iff _).mp (by decide)
  | none =>
    cases hov : overwriteErr p.source with
    | some e =>
      rw [afterA_overwrite_fail p _ _ e hcfg hov, ← List.cons_append,
          ← List.cons_append, List.filter_append, filter_errorState,
          List.append_nil]
      exact (chainB_iff _).mp (by decide)
    | none =>
      have hg := ginv_runGradleFold p.gradleLines
        (setPMS s2Record 50 "Building APK..." "in_progress") rfl rfl
      obtain ⟨hpl, h50, h92, hstat, hbnd, hch⟩ := hg
      by_cases hexit : p.gradleExit = 0
      · cases hapk : p.apkExists with
        | true =>
          rw [afterA_ok p _ _ hcfg hov hexit hapk,
              ← List.cons_append, ← List.cons_append, List.filter_append,
              List.filter_append,
              filter_gradle_events p.gradleLines _ rfl rfl,
              filter_preA2, filter_success_tail]
          exact chain_assemble _ _ _ _ hch
            (fun e he => ⟨(hbnd e he).2.1, (hbnd e he).2.2⟩)
            (chain_post_ok _) (post_head_ge _ _)
            ((chainB_iff _).mp (by decide)) (lastLe50_spec _ (by decide))
        | false =>
          rw [afterA_apk_missing p _ _ hcfg hov hexit hapk,
              ← List.cons_append, ← List.cons_append, List.filter_append,
              List.filter_append,
              filter_gradle_events p.gradleLines _ rfl rfl,
              filter_preA2, filter_verify_err]
          exact chain_assemble _ _ _ _ hch
            (fun e he => ⟨(hbnd e he).2.1, (hbnd e he).2.2⟩)
            (List.chain'_singleton _) (post_head_ge _ _)
            ((chainB_iff _).mp (by decide)) (lastLe50_spec _ (by decide))
      · rw [afterA_gradle_fail p _ _ hcfg hov hexit,
            ← List.cons_append, ← List.cons_append, List.filter_append,
            List.filter_append,
            filter_gradle_events p.gradleLines _ rfl rfl,
            filter_preA2, filter_errorState]
        exact chain_assemble _ _ _ _ hch
          (fun e he => ⟨(hbnd e he).2.1, (hbnd e he).2.2⟩)
          List.chain'_nil (by intro y hy; cases hy)
          ((chainB_iff _).mp (by decide)) (lastLe50_spec _ (by decide))

/-! ## Stream termination lemmas -/

theorem stream_dropLast_no_terminal (bid : String)
    (obs : List (Option JobState)) :
    ∀ last, ∀ e ∈ (streamEvents bid obs last).dropLast,
      isTerminalEv e = false := by
  induction obs with
  | nil =>
    intro last e he
    simp [streamEvents] at he
  | cons o rest ih =>
    intro last e he
    cases o with
    | none =>
      simp [streamEvents] at he
    | some st =>
      rw [streamEvents] at he
      by_cases hc : st.status = "complete"
      · rw [if_pos hc, List.dropLast_concat] at he
        by_cases hl : some st ≠ last
        · rw [if_pos hl] at he
          rcases List.mem_singleton.mp he with rfl
          rfl
        · rw [if_neg hl] at he
          cases he
      · rw [if_neg hc] at he
        by_cases herr : st.status = "error"
        · rw [if_pos herr, List.dropLast_concat] at he
          by_cases hl : some st ≠ last
          · rw [if_pos hl] at he
            rcases List.mem_singleton.mp he with rfl
            rfl
          · rw [if_neg hl] at he
            cases he
        · rw [if_neg herr] at he
          by_cases hl : some st ≠ last
          · rw [if_pos hl] at he
            cases hrest : streamEvents bid rest (some st) with
            | nil =>
              rw [hrest] at he
              cases he
            | cons x xs =>
              rw [hrest, List.singleton_append, List.dropLast_cons₂] at he
              rcases List.mem_cons.mp he with rfl | he2
              · rfl
              · have := ih (some st) e
                rw [hrest] at this
                exact this he2
          · rw [if_neg hl, List.nil_append] at he
            exact ih (some st) e he

theorem stream_terminal_stops (bid : String) (obs1 : List (Option JobState))
    (t : JobState) (rest : List (Option JobState))
    (hnt : ∀ o ∈ obs1,
      ∃ s, o = some s ∧ s.status ≠ "complete" ∧ s.status ≠ "error")
    (ht : t.status = "complete" ∨ t.status = "error") :
    ∀ last,
      streamEvents bid (obs1 ++ some t :: rest) last
        = streamEvents bid (obs1 ++ [some t]) last
      ∧ ((streamEvents bid (obs1 ++ some t :: rest) last).filter
          isTerminalEv).length = 1
      ∧ ∃ e, (streamEvents bid (obs1 ++ some t :: rest) last).getLast?
            = some e ∧ isTerminalEv e = true := by
  induction obs1 with
  | nil =>
    intro last
    simp only [List.nil_append]
    rcases ht with hterm | hterm
    all_goals (
      rw [streamEvents, streamEvents]
      by_cases hl : some t ≠ last
      · rw [if_pos hl]
        simp only [hterm]
        refine ⟨rfl, ?_, ?_⟩
        · rfl
        · exact ⟨_, List.getLast?_concat _, rfl⟩
      · rw [if_neg hl]
        simp only [hterm]
        refine ⟨rfl, ?_, ?_⟩
        · rfl
        · exact ⟨_, List.getLast?_concat _, rfl⟩)
  | cons o obs1' ih =>
    intro last
    obtain ⟨s, rfl, hs1, hs2⟩ := hnt o (List.mem_cons_self o obs1')
    have ihs := ih (fun o' ho' => hnt o' (List.mem_cons_of_mem _ ho')) (some s)
    obtain ⟨ihe, ihf, e', ihl, iht⟩ := ihs
    rw [List.cons_append, List.cons_append, streamEvents, streamEvents,
        if_neg hs1, if_neg hs1, if_neg hs2, if_neg hs2]
    refine ⟨by rw [ihe], ?_, ?_⟩
    · rw [List.filter_append, List.length_append, ihf]
      by_cases hl : some s ≠ last
      · rw [if_pos hl]
        rfl
      · rw [if_neg hl]
        rfl
    · refine ⟨e', ?_, iht⟩
      rw [List.getLast?_append, ihl]
      rfl

/-! ## Small facts about the error and message steps -/

theorem errorState_status (s : JobState) (e : Exc) :
    (errorState s e).status = "error" := by
  cases e <;> rfl

theorem errorState_progress (s : JobState) (e : Exc) :
    (errorState s e).progress = 0 := by
  cases e <;> rfl

theorem finalState_overwrite_fail (p : PipelineEnv) (e : Exc)
    (hok : stageAOk p.source = true) (hcfg : p.applyConfigErr = none)
    (hov : overwriteErr p.source = some e) :
    finalState p = errorState s5Record e := by
  unfold finalState
  rcases executeBuild_stageA_ok p hok with h | h <;>
    rw [h, afterA_overwrite_fail p _ _ e hcfg hov, List.getLastD_concat] <;>
    rfl

theorem gradleMsgStep_last (st : GradleSt) (ls : String) :
    (gradleMsgStep st ls).last = st.last := by
  unfold gradleMsgStep
  split
  · rfl
  · split <;> rfl

theorem gradleMsgStep_progress (st : GradleSt) (ls : String) :
    (gradleMsgStep st ls).job.progress = st.job.progress := by
  unfold gradleMsgStep
  split
  · rfl
  · split <;> rfl

theorem find?_middle (l1 l2 : List (String × Nat)) (r : String × Nat)
    (q : (String × Nat) → Bool)
    (h1 : ∀ x ∈ l1, q x = false) (h2 : q r = true) :
    List.find? q (l1 ++ r :: l2) = some r := by
  induction l1 with
  | nil =>
    rw [List.nil_append, List.find?_cons, h2]
  | cons a t ih =>
    rw [List.cons_append, List.find?_cons, h1 a (List.mem_cons_self a t)]
    exact ih (fun x hx => h1 x (List.mem_cons_of_mem a hx))

/-! ## Concrete pipeline environments -/

/-- A run whose zip source has an index file and whose gradle
invocation prints one recognized line ("preBuild", checkpoint 5, scaled
to 52) before exiting with code 1. -/
def cexGradleFail : PipelineEnv where
  appId := "demo"
  name := "Demo"
  source := .zip ["index.html"]
  cleanResult := none
  applyConfigErr := none
  applyCfgCmd := "AC"
  gradleLines := ["preBuild\n"]
  gradleExit := 1
  gradleCmd := "GC"
  apkExists := false

/-- A run whose `apply_config` command fails. -/
def cexCfgFail : PipelineEnv where
  appId := "demo"
  name := "Demo"
  source := .zip ["index.html"]
  cleanResult := none
  applyConfigErr := some ("CMD", "OUT")
  applyCfgCmd := "CMD"
  gradleLines := []
  gradleExit := 0
  gradleCmd := "GC"
  apkExists := true

/-- A run submitted with no content source at all: URL mode with a
missing `main_url`. -/
def cexUrlNone : PipelineEnv where
  appId := "demo"
  name := "Demo"
  source := .url none
  cleanResult := none
  applyConfigErr := none
  applyCfgCmd := "AC"
  gradleLines := []
  gradleExit := 0
  gradleCmd := "GC"
  apkExists := true

/-- A run where gradle succeeds but the expected apk file is absent. -/
def cexApkMissing : PipelineEnv where
  appId := "demo"
  name := "Demo"
  source := .zip ["index.html"]
  cleanResult := none
  applyConfigErr := none
  applyCfgCmd := "AC"
  gradleLines := []
  gradleExit := 0
  gradleCmd := "GC"
  apkExists := false

/-- A run whose zip source extracts no `index.htm*` file. -/
def cexNoIndex : PipelineEnv where
  appId := "demo"
  name := "Demo"
  source := .zip ["style.css"]
  cleanResult := none
  applyConfigErr := none
  applyCfgCmd := "AC"
  gradleLines := []
  gradleExit := 0
  gradleCmd := "GC"
  apkExists := true

/-- A run whose git url parses to fewer than two path parts. -/
def cexGitBad : PipelineEnv where
  appId := "demo"
  name := "Demo"
  source := .git "" "http://x" "main" "index.html"
  cleanResult := none
  applyConfigErr := none
  applyCfgCmd := "AC"
  gradleLines := []
  gradleExit := 0
  gradleCmd := "GC"
  apkExists := true

/-- A request that supplies no content source (no url, no archive, no
git reference). -/
def noSourceReq : RequestSources :=
  { mainUrl := none, zipData := none, gitUrl := none }

/-! ## The claims -/

/-- C1, claim as stated is false at a concrete input: with a zip source
holding an index file and a gradle run that raises progress to 52 and
then exits 1, the job does end in `error`, but `progress` is reset to 0
by the error update rather than frozen at its last pre-failure value
52. -/
theorem C1_progress_reset_counterexample :
    ((executeBuild cexGradleFail initialBuildState).map
        (fun s => (s.progress, s.status)))
      = [(5, "in_progress"), (20, "in_progress"), (30, "in_progress"),
         (45, "in_progress"), (50, "in_progress"), (52, "in_progress"),
         (0, "error")]
    ∧ (finalState cexGradleFail).status = "error"
    ∧ ¬ (finalState cexGradleFail).progress = 52 :=
  ⟨by decide, by decide, by decide⟩

/-- C1 (amended): when the external build stage's child process exits
with a nonzero code, the job ends in status `error` and its error
detail contains the full captured output of the tool (it is exactly
"Command failed: ..." followed by the joined output lines), but
`progress` is reset to 0 by the error update, not frozen at its last
pre-failure value. -/
theorem C1_gradle_failure_error_amended (p : PipelineEnv)
    (hok : stageAOk p.source = true) (hcfg : p.applyConfigErr = none)
    (hov : overwriteErr p.source = none) (hexit : p.gradleExit ≠ 0) :
    (finalState p).status = "error"
    ∧ (finalState p).progress = 0
    ∧ (finalState p).error
        = some ("Command failed: " ++ p.gradleCmd ++ "\nOutput:\n"
            ++ String.join p.gradleLines) := by
  rw [finalState_gradle_fail p hok hcfg hov hexit]
  exact ⟨rfl, rfl, rfl⟩

/-- Witness for C1 (amended) at the concrete failing run. -/
theorem C1_gradle_failure_error_witness :
    stageAOk cexGradleFail.source = true
    ∧ cexGradleFail.gradleExit ≠ 0
    ∧ (finalState cexGradleFail).status = "error"
    ∧ (finalState cexGradleFail).progress = 0
    ∧ (finalState cexGradleFail).error
        = some "Command failed: GC\nOutput:\npreBuild\n" := by
  have h := C1_gradle_failure_error_amended cexGradleFail (by decide) rfl
    rfl (by decide)
  exact ⟨by decide, by decide, h.1, h.2.1, by rw [h.2.2]; decide⟩

/-- C2, claim as stated is false at a concrete input: the record
`build_apk` creates before returning the id has status `in_progress`,
not `pending` — no `pending` state ever exists. -/
theorem C2_initial_status_counterexample :
    (build_apk (fun _ => none) "id-1" noSourceReq "").1 "id-1"
      = some initialBuildState
    ∧ initialBuildState.status = "in_progress"
    ∧ ¬ initialBuildState.status = "pending" :=
  ⟨by decide, rfl, by decide⟩

/-- C2 (amended): for every submitted build request, the job record is
created in the registry with status `in_progress` (not `pending`) and
progress 0 before the id is returned synchronously; the id returned is
the one under which the record was registered. -/
theorem C2_submission_amended (reg : String → Option JobState)
    (bid : String) (req : RequestSources) (gp : String) :
    (build_apk reg bid req gp).2.1 = bid
    ∧ (build_apk reg bid req gp).1 bid = some initialBuildState
    ∧ initialBuildState.status = "in_progress"
    ∧ initialBuildState.progress = 0 := by
  refine ⟨rfl, ?_, rfl, rfl⟩
  show (if bid = bid then some initialBuildState else reg bid)
    = some initialBuildState
  rw [if_pos rfl]

/-- C3, claim as stated is false at a concrete input: a request with
zero content sources is accepted — `build_apk` performs no validation,
creates the job record and returns the id, handing the thread URL mode
with a missing `main_url`. -/
theorem C3_no_validation_counterexample :
    (build_apk (fun _ => none) "id-3" noSourceReq "").1 "id-3"
      = some initialBuildState
    ∧ (build_apk (fun _ => none) "id-3" noSourceReq "").2.2
        = Source.url none :=
  ⟨by decide, rfl⟩

/-- C3 (amended): a BuildRequest with zero content sources is not
rejected synchronously and a Job record is created anyway; the missing
source only surfaces later in the background pipeline, which ends the
job in status `error` (the source-injection stage fails on the missing
url) when the earlier stages succeed. -/
theorem C3_no_validation_amended (reg : String → Option JobState)
    (bid gp : String) (p : PipelineEnv)
    (hs : p.source = .url none) (hcfg : p.applyConfigErr = none) :
    (build_apk reg bid noSourceReq gp).1 bid = some initialBuildState
    ∧ (build_apk reg bid noSourceReq gp).2.2 = Source.url none
    ∧ (finalState p).status = "error"
    ∧ (finalState p).error
        = some "replace() argument 2 must be str, not None" := by
  have hf := finalState_url_none p hs hcfg
  refine ⟨?_, rfl, ?_, ?_⟩
  · show (if bid = bid then some initialBuildState else reg bid)
      = some initialBuildState
    rw [if_pos rfl]
  · rw [hf]
    rfl
  · rw [hf]
    rfl

/-- Witness for C3 (amended) at a concrete sourceless request. -/
theorem C3_no_validation_witness :
    cexUrlNone.source = Source.url none
    ∧ (build_apk (fun _ => none) "id-3" noSourceReq "").1 "id-3"
        = some initialBuildState
    ∧ (finalState cexUrlNone).status = "error" := by
  have h := C3_no_validation_amended (fun _ => none) "id-3" ""
    cexUrlNone rfl rfl
  exact ⟨rfl, h.1, h.2.2.1⟩

/-- The rule table of the claim about progress scaling. -/
def c4rules : List (String × Nat) := [("A", 10), ("B", 50)]

/-- The estimator run of that claim: table `[("A",10),("B",50)]`, base
50, lines "A", "B", "A". -/
def c4run : GradleSt :=
  runGradleFold c4rules 50 ["A", "B", "A"] s6Record

/-- C4, claim as stated is false at its own input: with rule table
`[("A",10),("B",50)]` and base 50 the estimator emits progress 54 then
72, not 55 then 75 — the program's ceiling is hardcoded to 95 (not the
claimed window top 100) and the scaled value is truncated. -/
theorem C4_window_counterexample :
    c4run.events.map (fun e => e.progress) = [54, 72]
    ∧ ¬ c4run.events.map (fun e => e.progress) = [55, 75] :=
  ⟨by decide, by decide⟩

/-- C4 (amended): with rule table `[("A",10),("B",50)]` and base 50, a
line containing "A" then a line containing "B" emit progress updates 54
then 72 (scaled = base + (checkpoint/100)·(95 − base), truncated, with
the ceiling hardcoded at 95), and a subsequent "A" line emits no update
because the monotonic ratchet holds at 72: exactly two updates are
emitted. -/
theorem C4_scaling_amended :
    c4run.events.map (fun e => (e.progress, e.message))
      = [(54, "Building: A"), (72, "Building: B")]
    ∧ scaledProgress 50 10 = 54
    ∧ scaledProgress 50 50 = 72
    ∧ c4run.last = 72
    ∧ c4run.events.length = 2 :=
  ⟨by decide, rfl, rfl, by decide, by decide⟩

/-- C5: for every pipeline run, the sequence of registry states whose
status is `in_progress` (starting from the submission record) has
non-decreasing `progress` — no update lowers an already-set progress
while the job is in progress. -/
theorem C5_progress_monotone (p : PipelineEnv) :
    ((initialBuildState :: executeBuild p initialBuildState).filter
      inProg).Pairwise progLe := by
  rw [← List.chain'_iff_pairwise]
  by_cases hok : stageAOk p.source = true
  · rcases executeBuild_stageA_ok p hok with h | h
    · rw [h]
      exact chain_afterA1 p
    · rw [h]
      exact chain_afterA2 p
  · cases hsv : p.source with
    | zip entries =>
      have hnone : findIndexFile entries = none := by
        cases hfi : findIndexFile entries with
        | none => rfl
        | some f =>
          exact absurd (by rw [hsv]; simp [stageAOk, hfi]) hok
      rw [executeBuild_zip_noindex p entries hsv hnone]
      exact (chainB_iff _).mp (by decide)
    | git up ru b en =>
      have hbad : (gitParts up).length < 2 := by
        by_contra hnb
        exact hok (by rw [hsv]; simp [stageAOk, hnb])
      rw [executeBuild_git_bad p up ru b en hsv hbad,
          ← List.cons_append, List.filter_append, filter_errorState,
          List.append_nil]
      exact (chainB_iff _).mp (by decide)
    | url mu =>
      exact absurd (by rw [hsv]; rfl) hok

/-- C6: an output line matching no rule of the table leaves the
monotonic ratchet (`last_progress`) and the registry `progress`
unchanged — processing an unrecognized line is a no-op on progress
(only `message` may change via the Downloading/Compiling heuristic). -/
theorem C6_unmatched_line_noop (rules : List (String × Nat)) (base : Nat)
    (st : GradleSt) (line : String)
    (h : findRule rules (pyStrip line) = none) :
    (gradleLineStep rules base st line).last = st.last
    ∧ (gradleLineStep rules base st line).job.progress = st.job.progress := by
  unfold gradleLineStep
  constructor
  · rw [gradleMsgStep_last]
    unfold gradleRuleStep
    rw [h]
  · rw [gradleMsgStep_progress]
    unfold gradleRuleStep
    rw [h]

/-- Witness for C6 at the program's rule table and a line that matches
nothing. -/
theorem C6_unmatched_line_noop_witness :
    findRule GRADLE_TASKS (pyStrip "nothing to see") = none
    ∧ (gradleLineStep GRADLE_TASKS 50
        ⟨50, "t", initialBuildState, [], []⟩ "nothing to see").last = 50
    ∧ (gradleLineStep GRADLE_TASKS 50
        ⟨50, "t", initialBuildState, [], []⟩
        "nothing to see").job.progress = 0 := by
  have h : findRule GRADLE_TASKS (pyStrip "nothing to see") = none := by
    decide
  have hc := C6_unmatched_line_noop GRADLE_TASKS 50
    ⟨50, "t", initialBuildState, [], []⟩ "nothing to see" h
  exact ⟨h, hc.1, hc.2⟩

/-- C7: the estimator scans the rule table in order and the first rule
whose marker is a substring of the (stripped) line is the one applied:
if no rule before `r` matches and `r` matches, the scan returns `r`,
and when `r`'s scaled checkpoint beats the ratchet, the new ratchet
value is `r`'s scaled checkpoint — later rules are never consulted. -/
theorem C7_first_match_wins (l1 l2 : List (String × Nat))
    (r : String × Nat) (line : String)
    (h1 : ∀ x ∈ l1, strContains (pyStrip line) x.1 = false)
    (h2 : strContains (pyStrip line) r.1 = true) :
    findRule (l1 ++ r :: l2) (pyStrip line) = some r
    ∧ ∀ (base : Nat) (st : GradleSt),
        st.last < scaledProgress base r.2 →
        (gradleLineStep (l1 ++ r :: l2) base st line).last
          = scaledProgress base r.2 := by
  have hfind : findRule (l1 ++ r :: l2) (pyStrip line) = some r :=
    find?_middle l1 l2 r _ h1 h2
  refine ⟨hfind, ?_⟩
  intro base st hlt
  unfold gradleLineStep
  rw [gradleMsgStep_last]
  unfold gradleRuleStep
  rw [hfind]
  dsimp only
  rw [if_pos hlt]

/-- Witness for C7: with an earlier non-matching rule and a later rule
that also matches, the first matching rule ("A", 10) is applied — the
ratchet moves to its scaled value 54, not to the later ("A", 99). -/
theorem C7_first_match_wins_witness :
    strContains (pyStrip " xAy ") "A" = true
    ∧ findRule ([("ZZZ", 80)] ++ ("A", 10) :: [("A", 99)])
        (pyStrip " xAy ") = some ("A", 10)
    ∧ (gradleLineStep ([("ZZZ", 80)] ++ ("A", 10) :: [("A", 99)]) 50
        ⟨50, "t", initialBuildState, [], []⟩ " xAy ").last = 54 := by
  have h := C7_first_match_wins [("ZZZ", 80)] [("A", 99)] ("A", 10)
    " xAy " (by decide) (by decide)
  refine ⟨by decide, h.1, ?_⟩
  have h2 := h.2 50 ⟨50, "t", initialBuildState, [], []⟩ (by decide)
  rw [h2]
  decide

/-- C8: the progress stream generator never produces any event after a
terminal event (every terminal event is the last element), and once a
poll observes a terminal state (`complete` or `error`) after only
non-terminal observations, the stream emits exactly one terminal event,
ends there, and never consumes any later observation. -/
theorem C8_terminal_event_ends_stream :
    (∀ (bid : String) (obs : List (Option JobState))
      (last : Option JobState),
      ∀ e ∈ (streamEvents bid obs last).dropLast, isTerminalEv e = false)
  ∧ (∀ (bid : String) (obs1 : List (Option JobState)) (t : JobState)
      (rest : List (Option JobState)) (last : Option JobState),
      (∀ o ∈ obs1,
        ∃ s, o = some s ∧ s.status ≠ "complete" ∧ s.status ≠ "error") →
      (t.status = "complete" ∨ t.status = "error") →
      streamEvents bid (obs1 ++ some t :: rest) last
        = streamEvents bid (obs1 ++ [some t]) last
      ∧ ((streamEvents bid (obs1 ++ some t :: rest) last).filter
          isTerminalEv).length = 1
      ∧ ∃ e, (streamEvents bid (obs1 ++ some t :: rest) last).getLast?
            = some e ∧ isTerminalEv e = true) :=
  ⟨fun bid obs last => stream_dropLast_no_terminal bid obs last,
   fun bid obs1 t rest last hnt ht =>
     stream_terminal_stops bid obs1 t rest hnt ht last⟩

/-- A non-terminal snapshot used by the C8 witness. -/
def c8a : JobState :=
  { status := "in_progress", progress := 5, message := "m" }

/-- A terminal snapshot used by the C8 witness. -/
def c8t : JobState :=
  { status := "complete", progress := 100, message := "d" }

/-- A later snapshot that must never be consumed by the C8 witness
stream. -/
def c8r : Option JobState :=
  some { status := "error", progress := 0, message := "x" }

/-- Witness for C8: one non-terminal poll, then a `complete` poll, then
a poison observation — the stream stops at the terminal event, emits it
exactly once, and the poison observation is never consumed. -/
theorem C8_terminal_event_ends_stream_witness :
    (∀ e ∈ (streamEvents "b" [some c8a, some c8t, c8r] none).dropLast,
      isTerminalEv e = false)
    ∧ streamEvents "b" ([some c8a] ++ some c8t :: [c8r]) none
        = streamEvents "b" ([some c8a] ++ [some c8t]) none
    ∧ ((streamEvents "b" ([some c8a] ++ some c8t :: [c8r]) none).filter
        isTerminalEv).length = 1
    ∧ ∃ e, (streamEvents "b"
          ([some c8a] ++ some c8t :: [c8r]) none).getLast?
        = some e ∧ isTerminalEv e = true := by
  have h := C8_terminal_event_ends_stream
  have h2 := h.2 "b" [some c8a] c8t [c8r] none
    (by
      intro o ho
      rw [List.mem_singleton] at ho
      subst ho
      exact ⟨c8a, rfl, by decide, by decide⟩)
    (Or.inl rfl)
  exact ⟨h.1 "b" [some c8a, some c8t, c8r] none, h2.1, h2.2.1, h2.2.2⟩

/-- C9: a failure of the clean stage is fully suppressed — the run's
registry trace does not depend on the clean command's outcome at all —
and it is the only stage with swallowed failures: a failing
`apply_config`, a failing source injection, a nonzero gradle exit, a
missing apk, a zip without an index file and a malformed git url each
end the job in status `error`. -/
theorem C9_clean_failure_suppressed :
    (∀ (p : PipelineEnv) (r : Option Exc) (s0 : JobState),
      executeBuild { p with cleanResult := r } s0
        = executeBuild { p with cleanResult := none } s0)
  ∧ (∀ (p : PipelineEnv) (c : String × String),
      stageAOk p.source = true → p.applyConfigErr = some c →
      (finalState p).status = "error")
  ∧ (∀ (p : PipelineEnv) (e : Exc),
      stageAOk p.source = true → p.applyConfigErr = none →
      overwriteErr p.source = some e → (finalState p).status = "error")
  ∧ (∀ p : PipelineEnv,
      stageAOk p.source = true → p.applyConfigErr = none →
      overwriteErr p.source = none → p.gradleExit ≠ 0 →
      (finalState p).status = "error")
  ∧ (∀ p : PipelineEnv,
      stageAOk p.source = true → p.applyConfigErr = none →
      overwriteErr p.source = none → p.gradleExit = 0 →
      p.apkExists = false → (finalState p).status = "error")
  ∧ (∀ (p : PipelineEnv) (entries : List String),
      p.source = .zip entries → findIndexFile entries = none →
      (finalState p).status = "error")
  ∧ (∀ (p : PipelineEnv) (up ru b en : String),
      p.source = .git up ru b en → (gitParts up).length < 2 →
      (finalState p).status = "error") := by
  refine ⟨fun p r s0 => rfl, ?_, ?_, ?_, ?_, ?_, ?_⟩
  · intro p c hok hcfg
    rw [finalState_cfg_fail p c hok hcfg]
    rfl
  · intro p e hok hcfg hov
    rw [finalState_overwrite_fail p e hok hcfg hov]
    exact errorState_status _ _
  · intro p hok hcfg hov hexit
    rw [finalState_gradle_fail p hok hcfg hov hexit]
    rfl
  · intro p hok hcfg hov hexit hapk
    rw [finalState_apk_missing p hok hcfg hov hexit hapk]
    rfl
  · intro p entries hs hnone
    rw [finalState_zip_noindex p entries hs hnone]
    rfl
  · intro p up ru b en hs hbad
    rw [finalState_git_bad p up ru b en hs hbad]
    rfl

/-- Witness for C9 at concrete runs of every branch. -/
theorem C9_clean_failure_suppressed_witness :
    executeBuild { cexGradleFail with cleanResult := some (.other "boom") }
        initialBuildState
      = executeBuild { cexGradleFail with cleanResult := none }
          initialBuildState
    ∧ (finalState cexCfgFail).status = "error"
    ∧ (finalState cexUrlNone).status = "error"
    ∧ (finalState cexGradleFail).status = "error"
    ∧ (finalState cexApkMissing).status = "error"
    ∧ (finalState cexNoIndex).status = "error"
    ∧ (finalState cexGitBad).status = "error" := by
  have h := C9_clean_failure_suppressed
  exact ⟨h.1 cexGradleFail (some (.other "boom")) initialBuildState,
    h.2.1 cexCfgFail ("CMD", "OUT") (by decide) rfl,
    h.2.2.1 cexUrlNone
      (.other "replace() argument 2 must be str, not None")
      (by decide) rfl rfl,
    h.2.2.2.1 cexGradleFail (by decide) rfl rfl (by decide),
    h.2.2.2.2.1 cexApkMissing (by decide) rfl rfl rfl rfl,
    h.2.2.2.2.2.1 cexNoIndex ["style.css"] rfl (by decide),
    h.2.2.2.2.2.2 cexGitBad "" "http://x" "main" "index.html" rfl
      (by decide)⟩

/-- C10: a zip content source that extracts no file matching
`index.htm*` makes the pipeline end the job in status `error`, with the
diagnostic "No index.html found in zip" as the error detail and inside
the user-visible message, and no state of the run ever reads
`complete` (no artifact is produced). -/
theorem C10_missing_index_error (p : PipelineEnv) (entries : List String)
    (hs : p.source = .zip entries)
    (hnone : findIndexFile entries = none) :
    (finalState p).status = "error"
    ∧ (finalState p).error = some "No index.html found in zip"
    ∧ strContains (finalState p).message "No index.html found in zip"
        = true
    ∧ ∀ s ∈ executeBuild p initialBuildState, ¬ s.status = "complete" := by
  rw [finalState_zip_noindex p entries hs hnone,
      executeBuild_zip_noindex p entries hs hnone]
  refine ⟨rfl, rfl, by decide, ?_⟩
  intro s hmem
  rcases List.mem_cons.mp hmem with rfl | hmem2
  · decide
  · rcases List.mem_singleton.mp hmem2 with rfl
    decide

/-- Witness for C10 at a concrete zip source without an index file. -/
theorem C10_missing_index_error_witness :
    findIndexFile ["style.css"] = none
    ∧ (finalState cexNoIndex).status = "error"
    ∧ (finalState cexNoIndex).error = some "No index.html found in zip"
    ∧ strContains (finalState cexNoIndex).message
        "No index.html found in zip" = true := by
  have h := C10_missing_index_error cexNoIndex ["style.css"] rfl
    (by decide)
  exact ⟨by decide, h.1, h.2.1, h.2.2.1⟩
